import Mathlib

/-!
Verification development for the FoundryVTT custom-system-builder excerpt.

Embedded from source:
  - src/module/sheets/components/NumberField.js
      (getMinVal, getMaxVal, persistValue, toJSON, fromJSON, extractConfig)
  - src/unnamed/part_000
      (Combatant.prototype.getInitiativeFormulaImpl, Combatant.prototype.rollInitiative,
       Combat.prototype.rollInitiative)

The formula engine itself (ComputablePhrase.js / Formula.js) and the base class
InputComponent.js are imported by the sources but are not part of the excerpt;
where they are needed they are modelled from the specification and each such
definition carries a doc comment starting with the words Modelled from the spec.
-/

set_option maxRecDepth 4096

/-! ## JavaScript number model

JavaScript numeric values, as far as the embedded code observes them:
NaN, the two infinities, and finite numbers (modelled as rationals; the
embedded code performs no operation that distinguishes doubles from
rationals on the inputs it handles). -/

inductive JSNum where
  | nan
  | posInf
  | negInf
  | num (q : ℚ)
  deriving DecidableEq

/-! Rational arithmetic through mkRat, so that concrete computations reduce
inside the kernel; each operation is proved equal to the Mathlib one. -/

def ratAdd (a b : ℚ) : ℚ := mkRat (a.num * b.den + b.num * a.den) (a.den * b.den)

def ratSub (a b : ℚ) : ℚ := mkRat (a.num * b.den - b.num * a.den) (a.den * b.den)

def ratMul (a b : ℚ) : ℚ := mkRat (a.num * b.num) (a.den * b.den)

def ratDiv (a b : ℚ) : ℚ := Rat.divInt (a.num * (b.den : ℤ)) ((a.den : ℤ) * b.num)

theorem ratAdd_eq_add (a b : ℚ) : ratAdd a b = a + b := by
  rw [ratAdd, Rat.mkRat_eq_divInt]
  conv_rhs => rw [← Rat.num_divInt_den a, ← Rat.num_divInt_den b]
  rw [Rat.divInt_add_divInt _ _ (Int.natCast_ne_zero.mpr a.den_nz)
    (Int.natCast_ne_zero.mpr b.den_nz), Nat.cast_mul]

theorem ratSub_eq_sub (a b : ℚ) : ratSub a b = a - b := by
  rw [ratSub, Rat.mkRat_eq_divInt]
  conv_rhs => rw [← Rat.num_divInt_den a, ← Rat.num_divInt_den b]
  rw [Rat.divInt_sub_divInt _ _ (Int.natCast_ne_zero.mpr a.den_nz)
    (Int.natCast_ne_zero.mpr b.den_nz), Nat.cast_mul]

theorem ratMul_eq_mul (a b : ℚ) : ratMul a b = a * b := by
  rw [ratMul, Rat.mkRat_eq_divInt]
  conv_rhs => rw [← Rat.num_divInt_den a, ← Rat.num_divInt_den b]
  rw [Rat.divInt_mul_divInt _ _ (Int.natCast_ne_zero.mpr a.den_nz)
    (Int.natCast_ne_zero.mpr b.den_nz), Nat.cast_mul]

theorem ratDiv_eq_div (a b : ℚ) : ratDiv a b = a / b := by
  rw [ratDiv, Rat.div_def']

/-- Digits to a natural number, most significant first. -/
def digitsToNat (ds : List Char) : Nat :=
  ds.foldl (fun n c => n * 10 + (c.toNat - Char.toNat '0')) 0

/-- Split a list at the longest prefix satisfying p. -/
def takeWhileSplit (p : Char → Bool) : List Char → List Char × List Char
  | [] => ([], [])
  | c :: cs =>
      if p c then
        let (a, b) := takeWhileSplit p cs
        (c :: a, b)
      else ([], c :: cs)

/-- Decimal literal: digits, optionally with a single dot and fraction digits
(accepting the JavaScript forms 5, 5.25, 5. and .5). -/
def parseDecCharsQ (cs : List Char) : Option ℚ :=
  let (ip, rest) := takeWhileSplit Char.isDigit cs
  match rest with
  | [] => if ip.isEmpty then none else some ((digitsToNat ip : ℚ))
  | '.' :: rest2 =>
      let (fp, rest3) := takeWhileSplit Char.isDigit rest2
      if rest3.isEmpty && !(ip.isEmpty && fp.isEmpty) then
        some (ratAdd ((digitsToNat ip : ℚ))
          (ratDiv ((digitsToNat fp : ℚ)) (((10 ^ fp.length : ℕ) : ℚ))))
      else none
  | _ => none

/-- Optional leading sign before a decimal literal. -/
def parseSignedQ : List Char → Option ℚ
  | '+' :: rest => parseDecCharsQ rest
  | '-' :: rest => (parseDecCharsQ rest).map Neg.neg
  | cs => parseDecCharsQ cs

/-- Strip leading and trailing spaces. -/
def trimChars (cs : List Char) : List Char :=
  ((cs.dropWhile (fun c => c = ' ')).reverse.dropWhile (fun c => c = ' ')).reverse

/-- The JavaScript conversion Number(string), on the subset of syntax the
embedded code feeds it: whitespace trimming, the empty string as 0, signed
decimal literals and the Infinity spellings; everything else is NaN
(exponent and hexadecimal forms are not used by the embedded code). -/
def jsNumber (s : String) : JSNum :=
  let t := trimChars s.toList
  if t = [] then .num 0
  else if t = ("Infinity").toList || t = ("+Infinity").toList then .posInf
  else if t = ("-Infinity").toList then .negInf
  else
    match parseSignedQ t with
    | some q => .num q
    | none => .nan

/-- JavaScript strict comparison a < b (false whenever either side is NaN). -/
def jsLt : JSNum → JSNum → Bool
  | .nan, _ => false
  | _, .nan => false
  | .negInf, .negInf => false
  | .negInf, _ => true
  | _, .negInf => false
  | .posInf, _ => false
  | .num _, .posInf => true
  | .num a, .num b => decide (a < b)

/-- JavaScript comparison a <= b (false whenever either side is NaN). -/
def jsLe : JSNum → JSNum → Bool
  | .nan, _ => false
  | _, .nan => false
  | .negInf, _ => true
  | _, .negInf => false
  | _, .posInf => true
  | .posInf, _ => false
  | .num a, .num b => decide (a ≤ b)

/-- JavaScript addition with NaN and infinity propagation. -/
def jsAdd : JSNum → JSNum → JSNum
  | .nan, _ => .nan
  | _, .nan => .nan
  | .posInf, .negInf => .nan
  | .negInf, .posInf => .nan
  | .posInf, _ => .posInf
  | _, .posInf => .posInf
  | .negInf, _ => .negInf
  | _, .negInf => .negInf
  | .num a, .num b => .num (ratAdd a b)

/-- Number.isInteger. -/
def jsIsInteger : JSNum → Bool
  | .num q => q.den = 1
  | _ => false

theorem jsLe_refl (a : JSNum) (ha : a ≠ .nan) : jsLe a a = true := by
  cases a <;> simp_all [jsLe]

theorem jsLt_false_le (a b : JSNum) (ha : a ≠ .nan) (hb : b ≠ .nan)
    (h : jsLt a b = false) : jsLe b a = true := by
  cases a <;> cases b <;> simp_all [jsLt, jsLe]

theorem jsLe_lt_false (a b : JSNum) (h : jsLe a b = true) : jsLt b a = false := by
  cases a <;> cases b <;> simp_all [jsLt, jsLe]

/-! ## Marker scanning (spec 4.2, 6)

Modelled from the spec: the tokenizer of ComputablePhrase.js is not part of
the excerpt.  Expression spans are delimited by the fixed open marker made of
the two characters dollar and open-brace and closed by the two characters
close-brace and dollar (the observed convention, visible in the source both in
the phrase concatenation of Combat.prototype.rollInitiative and in the
initiative-setting hint).  Unmatched or unterminated markers degrade to
literal text, never to an error. -/

/-- First occurrence of the open marker: returns the text before it and the
text after it, or none when the marker does not occur. -/
def splitAtOpen : List Char → Option (List Char × List Char)
  | [] => none
  | [_] => none
  | c1 :: c2 :: rest =>
      if c1 = '$' ∧ c2 = '\x7b' then some ([], rest)
      else (splitAtOpen (c2 :: rest)).map (fun p => (c1 :: p.1, p.2))

/-- First occurrence of the close marker: returns the text before it and the
text after it, or none when the marker does not occur. -/
def splitAtClose : List Char → Option (List Char × List Char)
  | [] => none
  | [_] => none
  | c1 :: c2 :: rest =>
      if c1 = '\x7d' ∧ c2 = '$' then some ([], rest)
      else (splitAtClose (c2 :: rest)).map (fun p => (c1 :: p.1, p.2))

/-- One segment of a raw formula: literal text or the content of one
marker-delimited expression span. -/
inductive Segment where
  | lit (text : String)
  | expr (content : String)
  deriving DecidableEq

/-- Modelled from the spec: split a raw formula into literal and expression
segments.  Unterminated spans are kept as literal text (leniency policy).
The fuel argument only bounds the recursion; the input length suffices. -/
def parseSegsAux : Nat → List Char → List Segment
  | 0, cs => if cs = [] then [] else [.lit cs.asString]
  | fuel + 1, cs =>
      match splitAtOpen cs with
      | none => if cs = [] then [] else [.lit cs.asString]
      | some (before, after) =>
          match splitAtClose after with
          | none => if cs = [] then [] else [.lit cs.asString]
          | some (content, rest) =>
              (if before = [] then [] else [.lit before.asString])
                ++ .expr content.asString :: parseSegsAux fuel rest

/-- Modelled from the spec: the segment scanner of ComputablePhrase.js. -/
def parseSegments (s : String) : List Segment := parseSegsAux s.length s.toList

theorem parseSegsAux_nil (fuel : Nat) : parseSegsAux fuel [] = [] := by
  cases fuel <;> rfl

theorem parseSegsAux_noOpen (fuel : Nat) (cs : List Char) (h : splitAtOpen cs = none) :
    parseSegsAux fuel cs = if cs = [] then [] else [.lit cs.asString] := by
  cases fuel with
  | zero => rfl
  | succ n => simp [parseSegsAux, h]

theorem asString_toList (s : String) : s.toList.asString = s := rfl

theorem string_toList_append (a b : String) :
    (a ++ b).toList = a.toList ++ b.toList := by
  cases a; cases b; rfl


/-! ## Expression language (spec 3, 4.2, 6)

Modelled from the spec: the expression grammar of the formula engine.
Node variants follow the data-model section: literals, property references
with optional fallback, dice rolls with a modifier list, unary and binary
operators, calls to the fixed built-in set, a conditional, and table lookup
over ordered threshold-value rows (the lookup variant has no surface syntax
in the grammar section; it is reachable as a node). -/

inductive DiceMod where
  | kh (n : Nat)
  | kl (n : Nat)
  | dh (n : Nat)
  | dl (n : Nat)
  | rr (t : Nat)
  deriving DecidableEq

inductive BinOp where
  | add | sub | mul | div
  | clt | cle | cgt | cge | ceq | cne
  deriving DecidableEq

inductive Fn1 where
  | fround | ffloor | fceil | fabs | fsign
  deriving DecidableEq

inductive Fn2 where
  | fmin | fmax
  deriving DecidableEq

inductive Expr where
  | litNum (q : ℚ)
  | litStr (s : String)
  | prop (path : String) (fallback : Option String)
  | dice (count sides : Nat) (mods : List DiceMod)
  | neg (e : Expr)
  | bin (op : BinOp) (a b : Expr)
  | cond (c a b : Expr)
  | fn1 (f : Fn1) (a : Expr)
  | fn2 (f : Fn2) (a b : Expr)
  | table (key : Expr) (rows : List (ℚ × String))
  deriving DecidableEq

/-! ### Lexer -/

inductive Token where
  | num (q : ℚ)
  | ident (s : String)
  | dice (count sides : Nat) (mods : List DiceMod)
  | op (s : String)
  deriving DecidableEq

def isIdentStart (c : Char) : Bool := c.isAlpha || c = '_'

def isIdentChar (c : Char) : Bool := c.isAlphanum || c = '_' || c = '.'

/-- Dice modifier suffixes kh, kl, dh, dl and r, each followed by digits. -/
def lexMods : Nat → List Char → List DiceMod × List Char
  | 0, cs => ([], cs)
  | fuel + 1, cs =>
      match cs with
      | 'k' :: 'h' :: rest =>
          match takeWhileSplit Char.isDigit rest with
          | ([], _) => ([], cs)
          | (ds, r) => let (ms, r2) := lexMods fuel r; (.kh (digitsToNat ds) :: ms, r2)
      | 'k' :: 'l' :: rest =>
          match takeWhileSplit Char.isDigit rest with
          | ([], _) => ([], cs)
          | (ds, r) => let (ms, r2) := lexMods fuel r; (.kl (digitsToNat ds) :: ms, r2)
      | 'd' :: 'h' :: rest =>
          match takeWhileSplit Char.isDigit rest with
          | ([], _) => ([], cs)
          | (ds, r) => let (ms, r2) := lexMods fuel r; (.dh (digitsToNat ds) :: ms, r2)
      | 'd' :: 'l' :: rest =>
          match takeWhileSplit Char.isDigit rest with
          | ([], _) => ([], cs)
          | (ds, r) => let (ms, r2) := lexMods fuel r; (.dl (digitsToNat ds) :: ms, r2)
      | 'r' :: rest =>
          match takeWhileSplit Char.isDigit rest with
          | ([], _) => ([], cs)
          | (ds, r) => let (ms, r2) := lexMods fuel r; (.rr (digitsToNat ds) :: ms, r2)
      | _ => ([], cs)

/-- Modelled from the spec: the expression lexer.  Number literals, dice
literals with modifier suffixes, identifier paths, arithmetic, comparison
and grouping operators.  An unrecognized character fails the lex, which the
engine later degrades to literal passthrough. -/
def lex : Nat → List Char → Option (List Token)
  | _, [] => some []
  | 0, _ :: _ => none
  | fuel + 1, c :: cs =>
      if c = ' ' then lex fuel cs
      else if isIdentStart c then
        let (ds, r) := takeWhileSplit isIdentChar (c :: cs)
        (lex fuel r).map (fun ts => .ident ds.asString :: ts)
      else if c.isDigit then
        let (ds, r1) := takeWhileSplit Char.isDigit (c :: cs)
        match r1 with
        | 'd' :: r2 =>
            match takeWhileSplit Char.isDigit r2 with
            | ([], _) => none
            | (ss, r3) =>
                let (mods, r4) := lexMods r3.length r3
                (lex fuel r4).map
                  (fun ts => .dice (digitsToNat ds) (digitsToNat ss) mods :: ts)
        | '.' :: r2 =>
            match takeWhileSplit Char.isDigit r2 with
            | ([], _) => none
            | (fs, r3) =>
                (lex fuel r3).map
                  (fun ts =>
                    .num (ratAdd ((digitsToNat ds : ℚ))
                        (ratDiv ((digitsToNat fs : ℚ)) (((10 ^ fs.length : ℕ) : ℚ))))
                      :: ts)
        | _ => (lex fuel r1).map (fun ts => .num ((digitsToNat ds : ℚ)) :: ts)
      else
        match c, cs with
        | '<', '=' :: r => (lex fuel r).map (fun ts => .op ("<=") :: ts)
        | '>', '=' :: r => (lex fuel r).map (fun ts => .op (">=") :: ts)
        | '=', '=' :: r => (lex fuel r).map (fun ts => .op ("==") :: ts)
        | '!', '=' :: r => (lex fuel r).map (fun ts => .op ("!=") :: ts)
        | '<', r => (lex fuel r).map (fun ts => .op ("<") :: ts)
        | '>', r => (lex fuel r).map (fun ts => .op (">") :: ts)
        | '+', r => (lex fuel r).map (fun ts => .op ("+") :: ts)
        | '-', r => (lex fuel r).map (fun ts => .op ("-") :: ts)
        | '*', r => (lex fuel r).map (fun ts => .op ("*") :: ts)
        | '/', r => (lex fuel r).map (fun ts => .op ("/") :: ts)
        | '(', r => (lex fuel r).map (fun ts => .op ("(") :: ts)
        | ')', r => (lex fuel r).map (fun ts => .op (")") :: ts)
        | ',', r => (lex fuel r).map (fun ts => .op (",") :: ts)
        | _, _ => none

/-! ### Parser

A recursive-descent parser with the precedence of spec 4.2: comparisons
below additive below multiplicative below unary minus below primaries.
A single fuelled function over parse modes keeps the recursion structural. -/

/-- Map a built-in name and argument list to a call node (spec 4.4 fixed
built-in table). -/
def mkCall (name : String) (args : List Expr) : Option Expr :=
  match name, args with
  | "min", [a, b] => some (.fn2 .fmin a b)
  | "max", [a, b] => some (.fn2 .fmax a b)
  | "round", [a] => some (.fn1 .fround a)
  | "floor", [a] => some (.fn1 .ffloor a)
  | "ceil", [a] => some (.fn1 .fceil a)
  | "abs", [a] => some (.fn1 .fabs a)
  | "sign", [a] => some (.fn1 .fsign a)
  | "if", [c, a, b] => some (.cond c a b)
  | _, _ => none

inductive PMode where
  | cmp | padd | pmul | punary | pprim
  | cmpK (acc : Expr)
  | addK (acc : Expr)
  | mulK (acc : Expr)
  | fnArgs (name : String) (acc : List Expr)

def cmpOpOf (s : String) : Option BinOp :=
  if s = "==" then some .ceq
  else if s = "!=" then some .cne
  else if s = "<=" then some .cle
  else if s = ">=" then some .cge
  else if s = "<" then some .clt
  else if s = ">" then some .cgt
  else none

def parseL : Nat → PMode → List Token → Option (Expr × List Token)
  | 0, _, _ => none
  | fuel + 1, .cmp, toks =>
      (parseL fuel .padd toks).bind (fun p => parseL fuel (.cmpK p.1) p.2)
  | fuel + 1, .cmpK acc, toks =>
      match toks with
      | .op s :: rest =>
          match cmpOpOf s with
          | some o =>
              (parseL fuel .padd rest).bind
                (fun p => parseL fuel (.cmpK (.bin o acc p.1)) p.2)
          | none => some (acc, toks)
      | _ => some (acc, toks)
  | fuel + 1, .padd, toks =>
      (parseL fuel .pmul toks).bind (fun p => parseL fuel (.addK p.1) p.2)
  | fuel + 1, .addK acc, toks =>
      match toks with
      | .op ("+") :: rest =>
          (parseL fuel .pmul rest).bind
            (fun p => parseL fuel (.addK (.bin .add acc p.1)) p.2)
      | .op ("-") :: rest =>
          (parseL fuel .pmul rest).bind
            (fun p => parseL fuel (.addK (.bin .sub acc p.1)) p.2)
      | _ => some (acc, toks)
  | fuel + 1, .pmul, toks =>
      (parseL fuel .punary toks).bind (fun p => parseL fuel (.mulK p.1) p.2)
  | fuel + 1, .mulK acc, toks =>
      match toks with
      | .op ("*") :: rest =>
          (parseL fuel .punary rest).bind
            (fun p => parseL fuel (.mulK (.bin .mul acc p.1)) p.2)
      | .op ("/") :: rest =>
          (parseL fuel .punary rest).bind
            (fun p => parseL fuel (.mulK (.bin .div acc p.1)) p.2)
      | _ => some (acc, toks)
  | fuel + 1, .punary, toks =>
      match toks with
      | .op ("-") :: rest => (parseL fuel .punary rest).map (fun p => (.neg p.1, p.2))
      | _ => parseL fuel .pprim toks
  | fuel + 1, .pprim, toks =>
      match toks with
      | .num q :: rest => some (.litNum q, rest)
      | .dice n m mods :: rest => some (.dice n m mods, rest)
      | .ident name :: .op ("(") :: rest => parseL fuel (.fnArgs name []) rest
      | .ident name :: rest => some (.prop name none, rest)
      | .op ("(") :: rest =>
          (parseL fuel .cmp rest).bind
            (fun p =>
              match p.2 with
              | .op (")") :: r2 => some (p.1, r2)
              | _ => none)
      | _ => none
  | fuel + 1, .fnArgs name acc, toks =>
      match toks with
      | .op (")") :: rest => (mkCall name acc.reverse).map (fun e => (e, rest))
      | _ =>
          (parseL fuel .cmp toks).bind
            (fun p =>
              match p.2 with
              | .op (",") :: r2 => parseL fuel (.fnArgs name (p.1 :: acc)) r2
              | .op (")") :: r2 => (mkCall name (p.1 :: acc).reverse).map (fun e => (e, r2))
              | _ => none)

/-- Modelled from the spec: parse the content of one expression span.  A
failed lex or parse yields none, which the engine degrades to literal
passthrough with an inline error note. -/
def parseExpr (content : String) : Option Expr :=
  match lex (content.length + 1) content.toList with
  | none => none
  | some toks =>
      match parseL (4 * toks.length + 12) .cmp toks with
      | some (e, []) => some e
      | _ => none

/-! ## Property bag and resolver (spec 3, 4.1) -/

/-- A property bag: nested mapping from string keys to scalars, arrays or
nested mappings (spec data model). -/
inductive PropValue where
  | str (s : String)
  | num (q : ℚ)
  | obj (fields : List (String × PropValue))
  | arr (items : List PropValue)

def lookupField : List (String × PropValue) → String → Option PropValue
  | [], _ => none
  | (k, v) :: rest, key => if k = key then some v else lookupField rest key

/-- Split a dotted path into segments (own scanner so that proofs do not
depend on String.splitOn internals). -/
def splitPathAux : List Char → List Char → List String
  | acc, [] => [acc.reverse.asString]
  | acc, '.' :: rest => acc.reverse.asString :: splitPathAux [] rest
  | acc, c :: rest => splitPathAux (c :: acc) rest

def splitPath (s : String) : List String := splitPathAux [] s.toList

def parseIndex (s : String) : Option Nat :=
  if s.toList = [] then none
  else if s.toList.all Char.isDigit then some (digitsToNat s.toList) else none

def resolveSegs : List String → PropValue → Option PropValue
  | [], v => some v
  | seg :: rest, .obj fields =>
      match lookupField fields seg with
      | some v => resolveSegs rest v
      | none => none
  | seg :: rest, .arr items =>
      match parseIndex seg with
      | some i =>
          match items.get? i with
          | some v => resolveSegs rest v
          | none => none
      | none => none
  | _ :: _, _ => none

/-- Modelled from the spec: the property resolver, contract
resolve(bag, path) over dot-separated segments with numeric segments
indexing arrays; missing intermediate keys resolve to none, which the
engine degrades to the configured default (spec 4.1).  Bracketed dynamic
segments are not exercised by the embedded callers and are not modelled. -/
def resolveProp (bag : PropValue) (path : String) : Option PropValue :=
  resolveSegs (splitPath path) bag

/-- Modelled from the spec: table lookup, the value of the greatest
threshold at most the key in an ordered row list, none when the key is
below every threshold (spec 4.1). -/
def tableLookup : List (ℚ × String) → ℚ → Option String
  | [], _ => none
  | (t, v) :: rest, k =>
      if t ≤ k then
        match tableLookup rest k with
        | some w => some w
        | none => some v
      else tableLookup rest k

/-! ## Dice evaluator (spec 4.3)

Modelled from the spec: dice evaluation with a replaceable randomness
source (a pure stream indexed by draw position, for deterministic testing).
Keep and drop modifiers act on the sorted faces; the reroll modifier makes
one bounded extra draw per low face and then keeps the result (bounded
iteration, never an infinite reroll loop). -/

def clampFace (sides v : Nat) : Nat := if sides = 0 then 0 else v % sides + 1

def insertSorted (x : Nat) : List Nat → List Nat
  | [] => [x]
  | y :: ys => if x ≤ y then x :: y :: ys else y :: insertSorted x ys

def sortNat (l : List Nat) : List Nat := l.foldr insertSorted []

def applyMod (rng : Nat → Nat) (sides : Nat) (faces : List Nat) : DiceMod → List Nat
  | .kh n => ((sortNat faces).reverse.take n)
  | .kl n => ((sortNat faces).take n)
  | .dh n => ((sortNat faces).reverse.drop n)
  | .dl n => ((sortNat faces).drop n)
  | .rr t =>
      faces.enum.map (fun p => if p.2 < t then clampFace sides (rng (faces.length + p.1)) else p.2)

def rollDice (rng : Nat → Nat) (count sides : Nat) (mods : List DiceMod) : ℚ :=
  let faces := (List.range count).map (fun i => clampFace sides (rng i))
  let final := mods.foldl (applyMod rng sides) faces
  ((final.foldl (fun a b => a + b) 0 : Nat) : ℚ)

/-! ## Values and rendering -/

/-- The value of one evaluated expression: a number or a string (spec:
result is always a defined string or number). -/
inductive Value where
  | num (q : ℚ)
  | str (s : String)
  deriving DecidableEq

/-- Smallest power of ten clearing the denominator, up to nine digits. -/
def decExp (q : ℚ) : Option Nat :=
  (List.range 10).find? (fun k => 0 < k && (ratMul q (((10 ^ k : ℕ) : ℚ))).den = 1)

def padZeros (n len : Nat) : String :=
  let s := toString n
  (List.replicate (len - s.length) '0').asString ++ s

/-- Render a rational the way the engine renders numbers: integers without
a point, terminating decimals with one, anything else as a fraction. -/
def ratToString (q : ℚ) : String :=
  if q.den = 1 then toString q.num
  else
    match decExp q with
    | some k =>
        let n := (ratMul q (((10 ^ k : ℕ) : ℚ))).num
        let a := n.natAbs
        (if n < 0 then ("-") else ("")) ++ toString (a / 10 ^ k) ++ (".") ++ padZeros (a % 10 ^ k) k
    | none => toString q.num ++ ("/") ++ toString q.den

def valueToString : Value → String
  | .num q => ratToString q
  | .str s => s

/-- A resolved scalar string: numeric text becomes a number. -/
def strToValue (s : String) : Value :=
  match parseDecCharsQ s.toList with
  | some q => .num q
  | none =>
      match s.toList with
      | '-' :: rest =>
          match parseDecCharsQ rest with
          | some q => .num (-q)
          | none => .str s
      | _ => .str s

/-! ## Formula engine (spec 4.4)

Modelled from the spec: ComputablePhrase.js / Formula.js are not part of
the excerpt.  compute(rawFormula, propertyBag, options) parses the raw
formula into segments, evaluates each expression segment depth-first, and
concatenates literal text with stringified results.  Every evaluation
failure (division by zero, non-numeric arithmetic operand, unresolved
reference, out-of-range table lookup, exhausted recursion guard) is
absorbed as the configured default value, never propagated. -/

structure ComputeOptions where
  defaultValue : String := "0"
  computeExplanation : Bool := false
  reference : Option String := none
  rng : Nat → Nat := fun _ => 0

structure ComputationResult where
  result : String
  explanation : String
  deriving DecidableEq

def boolValue (b : Bool) : Value := .str (if b then ("true") else ("false"))

def evalBin (op : BinOp) (a b : Value) : Except String Value :=
  match op, a, b with
  | .add, .num x, .num y => .ok (.num (ratAdd x y))
  | .sub, .num x, .num y => .ok (.num (ratSub x y))
  | .mul, .num x, .num y => .ok (.num (ratMul x y))
  | .div, .num x, .num y =>
      if y = 0 then .error ("division by zero") else .ok (.num (ratDiv x y))
  | .clt, .num x, .num y => .ok (boolValue (decide (x < y)))
  | .cle, .num x, .num y => .ok (boolValue (decide (x ≤ y)))
  | .cgt, .num x, .num y => .ok (boolValue (decide (y < x)))
  | .cge, .num x, .num y => .ok (boolValue (decide (y ≤ x)))
  | .ceq, x, y => .ok (boolValue (decide (x = y)))
  | .cne, x, y => .ok (boolValue (!decide (x = y)))
  | _, _, _ => .error ("non-numeric arithmetic operand")

def evalFn1 (f : Fn1) (q : ℚ) : ℚ :=
  match f with
  | .fround => (⌊q + 1 / 2⌋ : ℤ)
  | .ffloor => (⌊q⌋ : ℤ)
  | .fceil => (⌈q⌉ : ℤ)
  | .fabs => |q|
  | .fsign => if q < 0 then -1 else if q = 0 then 0 else 1

def evalFn2 (f : Fn2) (a b : ℚ) : ℚ :=
  match f with
  | .fmin => min a b
  | .fmax => max a b

def isTruthyValue : Value → Bool
  | .num q => decide (q ≠ 0)
  | .str s => !(s = ("") || s = ("false"))

/-- A referenced property value, resolved to an expression value.  A string
holding marker spans is itself a formula and is recomputed through the
supplied recursion (spec 4.4 nested formula resolution); the recursion sets
the reference option to the referenced key so that a direct self-reference
is detected. -/
def propToValue (recurse : String → ComputeOptions → ComputationResult)
    (opts : ComputeOptions) (path : String) : PropValue → Except String Value
  | .str s =>
      if (splitAtOpen s.toList).isSome then
        .ok (strToValue (recurse s { opts with reference := some path }).result)
      else .ok (strToValue s)
  | .num q => .ok (.num q)
  | _ => .error ("referenced property is not a scalar")

def evalExpr (recurse : String → ComputeOptions → ComputationResult)
    (bag : PropValue) (opts : ComputeOptions) : Expr → Except String Value
  | .litNum q => .ok (.num q)
  | .litStr s => .ok (.str s)
  | .prop path _ =>
      if opts.reference = some path then .error ("self-referencing property")
      else
        match resolveProp bag path with
        | some v => propToValue recurse opts path v
        | none => .error ("unresolved property reference")
  | .dice n m mods => .ok (.num (rollDice opts.rng n m mods))
  | .neg e => do
      let v ← evalExpr recurse bag opts e
      match v with
      | .num q => .ok (.num (-q))
      | .str _ => .error ("non-numeric arithmetic operand")
  | .bin op a b => do
      let va ← evalExpr recurse bag opts a
      let vb ← evalExpr recurse bag opts b
      evalBin op va vb
  | .cond c a b => do
      let vc ← evalExpr recurse bag opts c
      if isTruthyValue vc then evalExpr recurse bag opts a else evalExpr recurse bag opts b
  | .fn1 f a => do
      let va ← evalExpr recurse bag opts a
      match va with
      | .num q => .ok (.num (evalFn1 f q))
      | .str _ => .error ("non-numeric arithmetic operand")
  | .fn2 f a b => do
      let va ← evalExpr recurse bag opts a
      let vb ← evalExpr recurse bag opts b
      match va, vb with
      | .num x, .num y => .ok (.num (evalFn2 f x y))
      | _, _ => .error ("non-numeric arithmetic operand")
  | .table ke rows => do
      let vk ← evalExpr recurse bag opts ke
      match vk with
      | .num k =>
          match tableLookup rows k with
          | some s => .ok (strToValue s)
          | none => .error ("table lookup out of range")
      | .str _ => .error ("non-numeric table key")

/-- The absorbed value of one expression: failures become the configured
default (the failure policy of spec 4.4). -/
def exprValue (recurse : String → ComputeOptions → ComputationResult)
    (bag : PropValue) (opts : ComputeOptions) (e : Expr) : String :=
  match evalExpr recurse bag opts e with
  | .error _ => opts.defaultValue
  | .ok v => valueToString v

/-- One expression span: parse failure degrades to the raw span text with
an inline error note; otherwise the absorbed value with its explanation
annotation original-text (resolved-value). -/
def evalSpan (recurse : String → ComputeOptions → ComputationResult)
    (bag : PropValue) (opts : ComputeOptions) (content : String) : String × String :=
  match parseExpr content with
  | none => (("$\x7b") ++ content ++ ("\x7d$"), content ++ (" (error)"))
  | some e =>
      let v := exprValue recurse bag opts e
      (v, content ++ (" (") ++ v ++ (")"))

def segPart (recurse : String → ComputeOptions → ComputationResult)
    (bag : PropValue) (opts : ComputeOptions) : Segment → String × String
  | .lit t => (t, (""))
  | .expr content => evalSpan recurse bag opts content

/-- Modelled from the spec: the compute loop with its hard recursion-depth
guard.  At depth zero the guard stops with the configured default (spec 7:
recursion guard exceeded stops with the best value, never fatal). -/
def computeAux : Nat → String → PropValue → ComputeOptions → ComputationResult
  | 0, _, _, opts => ⟨opts.defaultValue, ("")⟩
  | fuel + 1, raw, bag, opts =>
      let parts := (parseSegments raw).map
        (segPart (fun s o => computeAux fuel s bag o) bag opts)
      ⟨String.join (parts.map Prod.fst),
       if opts.computeExplanation then String.join (parts.map Prod.snd) else ("")⟩

/-- The fixed recursion bound for nested property-formula resolution
(spec design note: a fixed small depth such as 10). -/
def MAX_COMPUTE_DEPTH : Nat := 10

/-- Modelled from the spec: ComputablePhrase.computeMessageStatic, the
public compute contract of spec 4.4. -/
def ComputablePhrase.computeMessageStatic
    (raw : String) (bag : PropValue) (opts : ComputeOptions) : ComputationResult :=
  computeAux MAX_COMPUTE_DEPTH raw bag opts

/-- The instance form used through new ComputablePhrase(...).compute(...). -/
def ComputablePhrase.compute
    (raw : String) (bag : PropValue) (opts : ComputeOptions) : ComputationResult :=
  ComputablePhrase.computeMessageStatic raw bag opts

/-- Modelled from the spec: Formula.js computes a bare formula, one
expression without the surrounding markers (the initiative setting is
entered without them, per the setting hint in the source). -/
def Formula.compute (raw : String) (bag : PropValue) (opts : ComputeOptions) :
    ComputationResult :=
  let p := evalSpan (fun s o => computeAux (MAX_COMPUTE_DEPTH - 1) s bag o) bag opts raw
  ⟨p.1, if opts.computeExplanation then p.2 else ("")⟩

/-! ## NumberField component (src/module/sheets/components/NumberField.js)

The component data: the fields set by the NumberField constructor, those of
the base class included (the base class InputComponent.js only stores the
values passed through by the constructor shown in the source). -/

structure NumberFieldData where
  key : String
  tooltip : Option String := none
  templateAddress : String
  allowDecimal : Bool := false
  minVal : Option String := none
  maxVal : Option String := none
  allowRelative : Bool := true
  showControls : Bool := false
  label : Option String := none
  defaultValue : Option String := none
  size : Option String := none
  cssClass : Option String := none
  role : Nat := 0
  permission : Nat := 0

/-- JavaScript truthiness of a nullable string field. -/
def truthyStr : Option String → Bool
  | none => false
  | some s => !(s = (""))

/-- NumberField._getMinVal (NumberField.js lines 96 to 116): start from
negative infinity; a truthy minVal is converted with Number, a NaN
conversion falls back to computing minVal as a formula against the
property bag with default value 0 and reference set to the component key,
and a still-NaN result falls back to negative infinity. -/
def NumberField.getMinVal (f : NumberFieldData) (props : PropValue) : JSNum :=
  match f.minVal with
  | none => .negInf
  | some s =>
      if s = ("") then .negInf
      else
        let m := jsNumber s
        let m :=
          if m = .nan then
            jsNumber
              (ComputablePhrase.computeMessageStatic s props
                { reference := some f.key, defaultValue := ("0") }).result
          else m
        if m = .nan then .negInf else m

/-- NumberField._getMaxVal (NumberField.js lines 118 to 138): the mirror of
_getMinVal with positive infinity. -/
def NumberField.getMaxVal (f : NumberFieldData) (props : PropValue) : JSNum :=
  match f.maxVal with
  | none => .posInf
  | some s =>
      if s = ("") then .posInf
      else
        let m := jsNumber s
        let m :=
          if m = .nan then
            jsNumber
              (ComputablePhrase.computeMessageStatic s props
                { reference := some f.key, defaultValue := ("0") }).result
          else m
        if m = .nan then .posInf else m

/-- The JavaScript test s.startsWith(pre), by character-list prefix. -/
def jsStartsWith (s pre : String) : Bool := pre.data.isPrefixOf s.data

/-- A JavaScript value as the DOM input holds it after persistValue: the
rejected branch keeps the old string, every other branch stores a number. -/
inductive JSVal where
  | str (s : String)
  | num (n : JSNum)
  deriving DecidableEq

/-- The clamping steps of persistValue, in source order: raise to min,
then lower to max. -/
def clampJS (v lo hi : JSNum) : JSNum :=
  let v1 := if jsLt v lo then lo else v
  if jsLt hi v1 then hi else v1

/-- persistValue (NumberField.js lines 173 to 210), as a function of the
component, the property bag, the typed input string and the previously
persisted string.  A non-numeric input keeps the old value; a non-integer
input with decimals disallowed is replaced by the old string and processing
continues; a relative input (leading plus or minus, when allowed) adds to
the old value; the numeric result is clamped to min then max. -/
def NumberField.persistValue (f : NumberFieldData) (props : PropValue)
    (newInput oldVal : String) : JSVal :=
  if jsNumber newInput = .nan then .str oldVal
  else
    let s1 :=
      if !f.allowDecimal && !jsIsInteger (jsNumber newInput) then oldVal else newInput
    let v :=
      if f.allowRelative && (jsStartsWith s1 ("+") || jsStartsWith s1 ("-")) then
        jsAdd (jsNumber oldVal) (jsNumber s1)
      else jsNumber s1
    .num (clampJS v (NumberField.getMinVal f props) (NumberField.getMaxVal f props))

/-! ### Serialization (NumberField.js toJSON lines 283 to 295, fromJSON
lines 304 to 321) -/

structure BaseJSON where
  key : String
  tooltip : Option String
  label : Option String
  defaultValue : Option String
  size : Option String
  cssClass : Option String
  role : Nat
  permission : Nat
  deriving DecidableEq

/-- Modelled from the spec: InputComponent.js is not part of the excerpt;
per the component-descriptor contract its toJSON serializes the shared
descriptor fields key, tooltip, label, defaultValue, size, cssClass, role
and permission, exactly the fields its constructor receives. -/
def InputComponent.toJSON (f : NumberFieldData) : BaseJSON :=
  { key := f.key, tooltip := f.tooltip, label := f.label,
    defaultValue := f.defaultValue, size := f.size, cssClass := f.cssClass,
    role := f.role, permission := f.permission }

structure ComponentJSON extends BaseJSON where
  allowDecimal : Bool
  minVal : Option String
  maxVal : Option String
  allowRelative : Bool
  showControls : Bool
  type : String
  deriving DecidableEq

/-- NumberField.toJSON: the base serialization spread together with the
number-specific fields and the type tag. -/
def NumberField.toJSON (f : NumberFieldData) : ComponentJSON :=
  { toBaseJSON := InputComponent.toJSON f,
    allowDecimal := f.allowDecimal, minVal := f.minVal, maxVal := f.maxVal,
    allowRelative := f.allowRelative, showControls := f.showControls,
    type := ("numberField") }

/-- NumberField.fromJSON: rebuild the component from a descriptor and a
template address. -/
def NumberField.fromJSON (json : ComponentJSON) (templateAddress : String) :
    NumberFieldData :=
  { key := json.key, tooltip := json.tooltip, templateAddress := templateAddress,
    allowDecimal := json.allowDecimal, minVal := json.minVal, maxVal := json.maxVal,
    allowRelative := json.allowRelative, showControls := json.showControls,
    label := json.label, defaultValue := json.defaultValue, size := json.size,
    cssClass := json.cssClass, role := json.role, permission := json.permission }

/-! ### Configuration extraction (NumberField.js extractConfig lines 356
to 373) -/

/-- The values of a submitted configuration form, one field per input the
source reads. -/
structure SubmittedForm where
  componentKey : String
  tooltip : String
  cssClass : String
  role : Nat
  permission : Nat
  numberFieldLabel : String
  numberFieldValue : String
  numberFieldSize : String
  numberFieldAllowDecimal : Bool
  numberFieldMinVal : String
  numberFieldMaxVal : String
  numberFieldAllowRelative : Bool
  numberFieldShowControls : Bool
  deriving DecidableEq

structure FieldData where
  key : String
  tooltip : String
  cssClass : String
  role : Nat
  permission : Nat
  label : String
  defaultValue : String
  size : String
  allowDecimal : Bool
  minVal : String
  maxVal : String
  allowRelative : Bool
  showControls : Bool
  deriving DecidableEq

/-- Modelled from the spec: the base extractConfig of InputComponent.js is
not part of the excerpt; it reads the shared configuration inputs, the
component key among them, leaving the number-specific fields untouched. -/
def InputComponent.extractConfig (html : SubmittedForm) : FieldData :=
  { key := html.componentKey, tooltip := html.tooltip, cssClass := html.cssClass,
    role := html.role, permission := html.permission,
    label := (""), defaultValue := (""), size := (""),
    allowDecimal := false, minVal := (""), maxVal := (""),
    allowRelative := true, showControls := false }

/-- NumberField.extractConfig: a missing component key throws (a hard,
propagated failure); otherwise the number-specific inputs are copied over
the base field data and returned. -/
def NumberField.extractConfig (html : SubmittedForm) : Except String FieldData :=
  let fieldData := InputComponent.extractConfig html
  if fieldData.key = ("") then
    .error ("Component key is mandatory for number fields")
  else
    .ok { fieldData with
          label := html.numberFieldLabel,
          defaultValue := html.numberFieldValue,
          size := html.numberFieldSize,
          allowDecimal := html.numberFieldAllowDecimal,
          minVal := html.numberFieldMinVal,
          maxVal := html.numberFieldMaxVal,
          allowRelative := html.numberFieldAllowRelative,
          showControls := html.numberFieldShowControls }

/-! ## Initiative (src/unnamed/part_000, setInitiativeFormula lines 180
to 272) -/

/-- The mutable host configuration cell CONFIG.Combat.initiative.formula. -/
structure InitConfig where
  formula : String
  deriving DecidableEq

/-- Combatant.prototype._getInitiativeFormula (lines 181 to 190): read the
initFormula world setting, fall back to 1d20 when falsy, install the result
into CONFIG.Combat.initiative.formula, and return that cell, falling back
to the system default initiative only if the cell is falsy. -/
def Combatant.getInitiativeFormulaImpl (initFSetting systemInitiative : String)
    (_cfg : InitConfig) : String × InitConfig :=
  let formula := if initFSetting = ("") then ("1d20") else initFSetting
  let cfg2 : InitConfig := { formula := formula }
  (if cfg2.formula = ("") then systemInitiative else cfg2.formula, cfg2)

/-- Combatant.prototype.getInitiativeRoll (lines 192 to 194): a truthy raw
formula wins, otherwise _getInitiativeFormula runs (with its CONFIG write). -/
def Combatant.getInitiativeRoll (rawFormula : Option String)
    (initFSetting systemInitiative : String) (cfg : InitConfig) : String × InitConfig :=
  match rawFormula with
  | some f =>
      if f = ("") then Combatant.getInitiativeFormulaImpl initFSetting systemInitiative cfg
      else (f, cfg)
  | none => Combatant.getInitiativeFormulaImpl initFSetting systemInitiative cfg

/-- The combatant document state: the actor property bag and the combatant
fields the host persists. -/
structure CombatantState where
  props : PropValue
  initiative : Option String
  name : String
  hidden : Bool

/-- The update object handed to the host by this.update({initiative: ...}). -/
structure InitiativeUpdate where
  initiative : String
  deriving DecidableEq

/-- Combatant.prototype.rollInitiative (lines 196 to 204): compute the
initiative formula against the actor property bag with default value 0 and
explanation on, then hand back a single-field initiative update; the
returned state is the host applying exactly that update. -/
def Combatant.rollInitiative (c : CombatantState) (rawFormula : Option String)
    (initFSetting systemInitiative : String) (cfg : InitConfig) :
    InitiativeUpdate × CombatantState × InitConfig :=
  let r := Combatant.getInitiativeRoll rawFormula initFSetting systemInitiative cfg
  let res := Formula.compute r.1 c.props
    { defaultValue := ("0"), computeExplanation := true }
  let upd : InitiativeUpdate := ⟨res.result⟩
  (upd, { c with initiative := some upd.initiative }, r.2)

/-- Combat.prototype.rollInitiative, per combatant (lines 224 to 230): wrap
the raw formula of the combatant initiative roll in the expression markers
and compute the resulting phrase against the actor property bag; the update
pushed for the combatant carries the phrase result as its initiative. -/
def Combat.rollInitiativeOne (c : CombatantState) (rawFormula : Option String)
    (initFSetting systemInitiative : String) (cfg : InitConfig) :
    InitiativeUpdate × InitConfig :=
  let r := Combatant.getInitiativeRoll rawFormula initFSetting systemInitiative cfg
  let phrase := ComputablePhrase.compute (("$\x7b") ++ r.1 ++ ("\x7d$")) c.props
    { defaultValue := ("0"), computeExplanation := true }
  (⟨phrase.result⟩, r.2)

/-! ## Shared fixtures for concrete instantiations -/

def exBag : PropValue := .obj [(("str"), .num 7)]

def exNF : NumberFieldData :=
  { key := ("hp"), templateAddress := ("body.hp"),
    minVal := some ("5"), maxVal := some ("abc") }

def exC9 : NumberFieldData := { key := ("x"), templateAddress := ("t") }

def constRecurse : String → ComputeOptions → ComputationResult :=
  fun _ o => ⟨o.defaultValue, ("")⟩

def selfRefBag : PropValue := .obj [(("hp"), .str (("$\x7bhp\x7d$")))]

def formNoKey : SubmittedForm :=
  { componentKey := (""), tooltip := (""), cssClass := (""), role := 0, permission := 0,
    numberFieldLabel := (""), numberFieldValue := (""), numberFieldSize := (""),
    numberFieldAllowDecimal := false, numberFieldMinVal := (""), numberFieldMaxVal := (""),
    numberFieldAllowRelative := true, numberFieldShowControls := false }

def formWithKey : SubmittedForm :=
  { formNoKey with
    componentKey := ("strength"),
    numberFieldLabel := ("Strength"),
    numberFieldMinVal := ("0") }

/-! ## Claims -/

/-- Claim C2: for every NumberField instance, fromJSON of toJSON at the
same template address reproduces the instance: every descriptor field
(key, tooltip, label, defaultValue, size, cssClass, role, permission,
allowDecimal, minVal, maxVal, allowRelative, showControls) is preserved. -/
theorem NumberField.fromJSON_toJSON_roundTrip (f : NumberFieldData) :
    NumberField.fromJSON (NumberField.toJSON f) f.templateAddress = f := rfl

/-- Claim C5: NumberField.extractConfig throws a descriptive error exactly
when the extracted field data has an empty component key; with a non-empty
key it returns the extracted field data without throwing. -/
theorem NumberField.extractConfig_key_policy (html : SubmittedForm) :
    (html.componentKey = ("") →
      NumberField.extractConfig html =
        .error ("Component key is mandatory for number fields"))
    ∧ (html.componentKey ≠ ("") →
      NumberField.extractConfig html =
        .ok { key := html.componentKey, tooltip := html.tooltip,
              cssClass := html.cssClass, role := html.role,
              permission := html.permission,
              label := html.numberFieldLabel,
              defaultValue := html.numberFieldValue,
              size := html.numberFieldSize,
              allowDecimal := html.numberFieldAllowDecimal,
              minVal := html.numberFieldMinVal,
              maxVal := html.numberFieldMaxVal,
              allowRelative := html.numberFieldAllowRelative,
              showControls := html.numberFieldShowControls }) := by
  constructor
  · intro h
    simp [NumberField.extractConfig, InputComponent.extractConfig, h]
  · intro h
    simp [NumberField.extractConfig, InputComponent.extractConfig, h]

theorem NumberField.extractConfig_key_policy_witness :
    NumberField.extractConfig formNoKey =
      .error ("Component key is mandatory for number fields")
    ∧ NumberField.extractConfig formWithKey =
      .ok { key := ("strength"), tooltip := (""), cssClass := (""), role := 0,
            permission := 0, label := ("Strength"), defaultValue := (""),
            size := (""), allowDecimal := false, minVal := ("0"), maxVal := (""),
            allowRelative := true, showControls := false } :=
  ⟨(NumberField.extractConfig_key_policy formNoKey).1 rfl,
   ((NumberField.extractConfig_key_policy formWithKey).2 (by decide)).trans
     (by simp [formWithKey, formNoKey])⟩

/-- Claim C10: Combatant._getInitiativeFormula never returns an empty
formula: an empty (falsy) initFormula setting yields the fallback 1d20,
any other setting yields the setting string, and the returned formula is
also installed as CONFIG.Combat.initiative.formula. -/
theorem Combatant.getInitiativeFormula_spec (initF sysInit : String) (cfg : InitConfig) :
    (Combatant.getInitiativeFormulaImpl initF sysInit cfg).1 ≠ ("")
    ∧ (initF = ("") →
        (Combatant.getInitiativeFormulaImpl initF sysInit cfg).1 = ("1d20"))
    ∧ (initF ≠ ("") →
        (Combatant.getInitiativeFormulaImpl initF sysInit cfg).1 = initF)
    ∧ (Combatant.getInitiativeFormulaImpl initF sysInit cfg).2.formula =
        (Combatant.getInitiativeFormulaImpl initF sysInit cfg).1 := by
  by_cases h : initF = ("")
  · subst h
    refine ⟨by simp [Combatant.getInitiativeFormulaImpl], fun _ => rfl,
      fun hc => absurd rfl hc, rfl⟩
  · refine ⟨?_, fun hc => absurd hc h,
      fun _ => by simp [Combatant.getInitiativeFormulaImpl, h],
      by simp [Combatant.getInitiativeFormulaImpl, h]⟩
    simp [Combatant.getInitiativeFormulaImpl, h]

theorem Combatant.getInitiativeFormula_spec_witness :
    (Combatant.getInitiativeFormulaImpl ("") ("sys") ⟨("old")⟩).1 = ("1d20")
    ∧ (Combatant.getInitiativeFormulaImpl ("[1d20]") ("sys") ⟨("old")⟩).1 = ("[1d20]") :=
  ⟨(Combatant.getInitiativeFormula_spec ("") ("sys") ⟨("old")⟩).2.1 rfl,
   (Combatant.getInitiativeFormula_spec ("[1d20]") ("sys") ⟨("old")⟩).2.2.1 (by decide)⟩

/-- Claim C7: Combatant.rollInitiative computes the initiative formula
against the actor property bag without mutating it and hands back a single
update carrying only the initiative field; applying that update changes
the initiative field and nothing else of the combatant. -/
theorem Combatant.rollInitiative_frame (c : CombatantState) (rawFormula : Option String)
    (initF sysInit : String) (cfg : InitConfig) :
    (Combatant.rollInitiative c rawFormula initF sysInit cfg).2.1.props = c.props
    ∧ (Combatant.rollInitiative c rawFormula initF sysInit cfg).2.1.name = c.name
    ∧ (Combatant.rollInitiative c rawFormula initF sysInit cfg).2.1.hidden = c.hidden
    ∧ (Combatant.rollInitiative c rawFormula initF sysInit cfg).1.initiative =
        (Formula.compute (Combatant.getInitiativeRoll rawFormula initF sysInit cfg).1
          c.props { defaultValue := ("0"), computeExplanation := true }).result
    ∧ (Combatant.rollInitiative c rawFormula initF sysInit cfg).2.1.initiative =
        some (Combatant.rollInitiative c rawFormula initF sysInit cfg).1.initiative :=
  ⟨rfl, rfl, rfl, rfl, rfl⟩

/-- Claim C1: for a NumberField with a truthy minVal (resp. maxVal) and any
actor property bag, a non-NaN Number conversion of the bound is returned
directly; a NaN conversion falls back to computing the bound as a formula
with default value 0 and reference set to the component key; a still-NaN
result yields negative (resp. positive) infinity. -/
theorem NumberField.minMaxVal_spec (f : NumberFieldData) (props : PropValue)
    (s : String) (hs : s ≠ ("")) :
    (f.minVal = some s →
      ((jsNumber s ≠ .nan → NumberField.getMinVal f props = jsNumber s)
        ∧ (jsNumber s = .nan →
            NumberField.getMinVal f props =
              (if jsNumber (ComputablePhrase.computeMessageStatic s props
                    { reference := some f.key, defaultValue := ("0") }).result = .nan
               then .negInf
               else jsNumber (ComputablePhrase.computeMessageStatic s props
                    { reference := some f.key, defaultValue := ("0") }).result))))
    ∧ (f.maxVal = some s →
      ((jsNumber s ≠ .nan → NumberField.getMaxVal f props = jsNumber s)
        ∧ (jsNumber s = .nan →
            NumberField.getMaxVal f props =
              (if jsNumber (ComputablePhrase.computeMessageStatic s props
                    { reference := some f.key, defaultValue := ("0") }).result = .nan
               then .posInf
               else jsNumber (ComputablePhrase.computeMessageStatic s props
                    { reference := some f.key, defaultValue := ("0") }).result)))) := by
  constructor
  · intro hmin
    constructor
    · intro hn
      simp [NumberField.getMinVal, hmin, hs, hn]
    · intro hn
      simp [NumberField.getMinVal, hmin, hs, hn]
  · intro hmax
    constructor
    · intro hn
      simp [NumberField.getMaxVal, hmax, hs, hn]
    · intro hn
      simp [NumberField.getMaxVal, hmax, hs, hn]

theorem NumberField.minMaxVal_spec_witness :
    NumberField.getMinVal exNF exBag = .num 5
    ∧ NumberField.getMaxVal exNF exBag = .posInf :=
  ⟨((NumberField.minMaxVal_spec exNF exBag ("5") (by decide)).1 rfl).1 (by decide),
   (((NumberField.minMaxVal_spec exNF exBag ("abc") (by decide)).2 rfl).2
      (by decide)).trans (by decide)⟩

/-! ### String and segment lemmas -/

theorem empty_append_str (s : String) : ("") ++ s = s := by
  cases s
  rfl

theorem join_single (s : String) : String.join [s] = s := by
  show ("") ++ s = s
  exact empty_append_str s

theorem splitAtOpen_wrap (cs : List Char) :
    splitAtOpen ('$' :: '\x7b' :: cs) = some ([], cs) := by
  simp [splitAtOpen]

theorem splitAtClose_append (cs r : List Char) (h : splitAtClose cs = none) :
    splitAtClose (cs ++ '\x7d' :: '$' :: r) = some (cs, r) := by
  induction cs with
  | nil => simp [splitAtClose]
  | cons c tail ih =>
      cases tail with
      | nil => simp [splitAtClose]
      | cons c2 cs2 =>
          have hcond : ¬(c = '\x7d' ∧ c2 = '$') := by
            intro hc
            simp [splitAtClose, hc] at h
          have htail : splitAtClose (c2 :: cs2) = none := by
            by_cases hc : c = '\x7d' ∧ c2 = '$'
            · exact absurd hc hcond
            · simpa [splitAtClose, hc, Option.map_eq_none'] using h
          have := ih htail
          simp [splitAtClose, hcond]
          simp [List.cons_append] at this ⊢
          simp [this]

theorem parseSegsAux_wrap (fuel : Nat) (cs : List Char) (h : splitAtClose cs = none) :
    parseSegsAux (fuel + 1) ('$' :: '\x7b' :: (cs ++ '\x7d' :: '$' :: [])) =
      [Segment.expr cs.asString] := by
  have ho : splitAtOpen ('$' :: '\x7b' :: (cs ++ '\x7d' :: '$' :: [])) =
      some ([], cs ++ '\x7d' :: '$' :: []) := splitAtOpen_wrap _
  have hc := splitAtClose_append cs [] h
  simp [parseSegsAux, ho, hc, parseSegsAux_nil]

theorem string_length_toList (s : String) : s.length = s.toList.length := rfl

theorem asString_data (s : String) : s.data.asString = s := rfl

theorem wrap_toList (content : String) :
    (("$\x7b") ++ content ++ ("\x7d$")).toList =
      '$' :: '\x7b' :: (content.toList ++ '\x7d' :: '$' :: []) := by
  rw [string_toList_append, string_toList_append]
  rfl

theorem parseSegments_wrap (content : String) (h : splitAtClose content.toList = none) :
    parseSegments (("$\x7b") ++ content ++ ("\x7d$")) = [Segment.expr content] := by
  have hlist := wrap_toList content
  have hlen : (("$\x7b") ++ content ++ ("\x7d$")).length = (content.toList.length + 3) + 1 := by
    rw [string_length_toList, hlist]
    simp
  rw [parseSegments, hlen, hlist]
  rw [parseSegsAux_wrap _ _ h, asString_toList]

/-- Claim C4: a formula string containing no expression marker is returned
by compute unchanged, with an empty explanation. -/
theorem ComputablePhrase.literal_passthrough (raw : String) (bag : PropValue)
    (opts : ComputeOptions) (h : splitAtOpen raw.toList = none) :
    ComputablePhrase.computeMessageStatic raw bag opts = ⟨raw, ("")⟩ := by
  show computeAux (Nat.succ 9) raw bag opts = _
  rw [computeAux]
  rw [parseSegments, parseSegsAux_noOpen _ _ h]
  by_cases hr : raw.data = []
  · have hraw : raw = ("") := by
      cases raw
      simp_all
    subst hraw
    simp [String.join]
  · simp [hr, asString_data, segPart, join_single]

theorem ComputablePhrase.literal_passthrough_witness :
    ComputablePhrase.computeMessageStatic ("You rolled well") exBag {} =
      ⟨("You rolled well"), ("")⟩ :=
  ComputablePhrase.literal_passthrough ("You rolled well") exBag {} (by decide)

/-- Claim C6 counterexample: a lone closing brace, a single character, does
not terminate an expression span (the span stays literal); the span is
terminated only by the two-character close marker. -/
theorem Combat.closeMarker_counterexample :
    parseSegments ("$\x7b1d20\x7d") = [Segment.lit ("$\x7b1d20\x7d")]
    ∧ parseSegments ("$\x7b1d20\x7d$") = [Segment.expr ("1d20")] :=
  ⟨by decide, by decide⟩

/-- Claim C6 (amended): expression spans are delimited by the two-character
open marker dollar open-brace and the two-character close marker close-brace
dollar; Combat.rollInitiative evaluates, for a raw initiative formula f,
exactly the phrase obtained by wrapping f in those markers. -/
theorem Combat.rollInitiative_phrase_markers :
    (∀ (c : CombatantState) (f initF sysInit : String) (cfg : InitConfig),
      f ≠ ("") →
      (Combat.rollInitiativeOne c (some f) initF sysInit cfg).1.initiative =
        (ComputablePhrase.compute (("$\x7b") ++ f ++ ("\x7d$")) c.props
          { defaultValue := ("0"), computeExplanation := true }).result)
    ∧ (∀ content : String, splitAtClose content.toList = none →
      parseSegments (("$\x7b") ++ content ++ ("\x7d$")) = [Segment.expr content]) := by
  constructor
  · intro c f initF sysInit cfg hf
    simp [Combat.rollInitiativeOne, Combatant.getInitiativeRoll, hf]
  · intro content h
    exact parseSegments_wrap content h

theorem Combat.rollInitiative_phrase_markers_witness :
    (Combat.rollInitiativeOne ⟨exBag, none, ("c"), false⟩ (some ("1d20")) ("") ("")
        ⟨("")⟩).1.initiative =
      (ComputablePhrase.compute (("$\x7b") ++ ("1d20") ++ ("\x7d$")) exBag
        { defaultValue := ("0"), computeExplanation := true }).result
    ∧ parseSegments (("$\x7b") ++ ("1d20") ++ ("\x7d$")) = [Segment.expr ("1d20")] :=
  ⟨Combat.rollInitiative_phrase_markers.1 ⟨exBag, none, ("c"), false⟩ ("1d20") ("") ("")
      ⟨("")⟩ (by decide),
   Combat.rollInitiative_phrase_markers.2 ("1d20") (by decide)⟩

/-! ### Failure-policy lemmas -/

theorem except_bind_ok {α β γ : Type} (a : α) (f : α → Except γ β) :
    (Except.ok a >>= f) = f a := rfl

theorem except_bind_error {α β γ : Type} (m : γ) (f : α → Except γ β) :
    ((Except.error m : Except γ α) >>= f) = Except.error m := rfl

theorem tableLookup_none (rows : List (ℚ × String)) (k : ℚ)
    (h : ∀ tv ∈ rows, k < tv.1) : tableLookup rows k = none := by
  induction rows with
  | nil => rfl
  | cons tv rest ih =>
      obtain ⟨t, v⟩ := tv
      have h1 : k < t := h (t, v) (List.mem_cons_self _ _)
      have h2 := ih (fun x hx => h x (List.mem_cons_of_mem _ hx))
      simp [tableLookup, not_le.2 h1, h2]

/-- Claim C3: the failure policy of compute is best-effort substitution:
every expression evaluation failure is absorbed as the configured default
value rather than propagated, and in particular division by an operand
evaluating to zero, arithmetic on a string operand, and a table lookup
whose key is below every threshold each yield the default value. -/
theorem ComputablePhrase.failure_policy :
    (∀ (recurse : String → ComputeOptions → ComputationResult) (bag : PropValue)
        (opts : ComputeOptions) (e : Expr) (msg : String),
      evalExpr recurse bag opts e = .error msg →
      exprValue recurse bag opts e = opts.defaultValue)
    ∧ (∀ (recurse : String → ComputeOptions → ComputationResult) (bag : PropValue)
        (opts : ComputeOptions) (e1 e2 : Expr),
      evalExpr recurse bag opts e2 = .ok (.num 0) →
      exprValue recurse bag opts (.bin .div e1 e2) = opts.defaultValue)
    ∧ (∀ (recurse : String → ComputeOptions → ComputationResult) (bag : PropValue)
        (opts : ComputeOptions) (op : BinOp) (e1 e2 : Expr) (s : String),
      (op = .add ∨ op = .sub ∨ op = .mul ∨ op = .div) →
      evalExpr recurse bag opts e1 = .ok (.str s) →
      exprValue recurse bag opts (.bin op e1 e2) = opts.defaultValue)
    ∧ (∀ (recurse : String → ComputeOptions → ComputationResult) (bag : PropValue)
        (opts : ComputeOptions) (ke : Expr) (rows : List (ℚ × String)) (k : ℚ),
      evalExpr recurse bag opts ke = .ok (.num k) →
      (∀ tv ∈ rows, k < tv.1) →
      exprValue recurse bag opts (.table ke rows) = opts.defaultValue) := by
  refine ⟨?_, ?_, ?_, ?_⟩
  · intro recurse bag opts e msg h
    simp [exprValue, h]
  · intro recurse bag opts e1 e2 h2
    cases he1 : evalExpr recurse bag opts e1 with
    | error m => simp [exprValue, evalExpr, he1, except_bind_error]
    | ok va =>
        cases va <;>
          simp [exprValue, evalExpr, he1, h2, except_bind_ok, except_bind_error, evalBin]
  · intro recurse bag opts op e1 e2 s hop he1
    cases he2 : evalExpr recurse bag opts e2 with
    | error m =>
        rcases hop with h | h | h | h <;> subst h <;>
          simp [exprValue, evalExpr, he1, he2, except_bind_ok, except_bind_error]
    | ok vb =>
        rcases hop with h | h | h | h <;> subst h <;> cases vb <;>
          simp [exprValue, evalExpr, he1, he2, except_bind_ok, except_bind_error, evalBin]
  · intro recurse bag opts ke rows k hke hrows
    simp [exprValue, evalExpr, hke, except_bind_ok, tableLookup_none rows k hrows]

theorem ComputablePhrase.failure_policy_witness :
    exprValue constRecurse exBag {} (.bin .div (.litNum 1) (.litNum 0)) = ("0")
    ∧ exprValue constRecurse exBag {} (.bin .add (.litStr ("a")) (.litNum 1)) = ("0")
    ∧ exprValue constRecurse exBag {} (.table (.litNum (-1)) [(0, ("F")), (10, ("C"))]) = ("0")
    ∧ exprValue constRecurse exBag {} (.prop ("missing") none) = ("0") :=
  ⟨ComputablePhrase.failure_policy.2.1 constRecurse exBag {} (.litNum 1) (.litNum 0) rfl,
   ComputablePhrase.failure_policy.2.2.1 constRecurse exBag {} .add (.litStr ("a"))
     (.litNum 1) ("a") (Or.inl rfl) rfl,
   ComputablePhrase.failure_policy.2.2.2 constRecurse exBag {} (.litNum (-1))
     [(0, ("F")), (10, ("C"))] (-1) rfl (by decide),
   ComputablePhrase.failure_policy.1 constRecurse exBag {} (.prop ("missing") none)
     ("unresolved property reference") rfl⟩

/-! ### Identifier lemmas for self-reference analysis -/

def identTailChar (d : Char) : Bool := d.isAlphanum || d = '_'

/-- A plain property identifier: an identifier-start character followed by
alphanumeric or underscore characters (no dots, no marker characters). -/
def identOk (s : String) : Bool :=
  match s.toList with
  | [] => false
  | c :: rest => isIdentStart c && rest.all identTailChar

def wrapStr (s : String) : String := ("$\x7b") ++ s ++ ("\x7d$")

theorem lex_nil (fuel : Nat) : lex fuel [] = some [] := by
  cases fuel <;> rfl

theorem takeWhileSplit_all (p : Char → Bool) (cs : List Char)
    (h : ∀ c ∈ cs, p c = true) : takeWhileSplit p cs = (cs, []) := by
  induction cs with
  | nil => rfl
  | cons c rest ih =>
      have hc := h c (List.mem_cons_self _ _)
      have := ih (fun x hx => h x (List.mem_cons_of_mem _ hx))
      simp [takeWhileSplit, hc, this]

theorem identStart_not_space (c : Char) (h : isIdentStart c = true) : ¬(c = ' ') := by
  intro he
  subst he
  exact absurd h (by decide)

theorem identStart_isIdentChar (c : Char) (h : isIdentStart c = true) :
    isIdentChar c = true := by
  simp [isIdentStart] at h
  simp [isIdentChar, Char.isAlphanum]
  tauto

theorem identTail_isIdentChar (d : Char) (h : identTailChar d = true) :
    isIdentChar d = true := by
  simp [identTailChar] at h
  simp [isIdentChar]
  tauto

theorem identStart_not_close (c : Char) (h : isIdentStart c = true) : ¬(c = '\x7d') := by
  intro he
  subst he
  exact absurd h (by decide)

theorem identTail_not_close (d : Char) (h : identTailChar d = true) : ¬(d = '\x7d') := by
  intro he
  subst he
  exact absurd h (by decide)

theorem splitAtClose_none_of (cs : List Char) (h : ∀ c ∈ cs, ¬(c = '\x7d')) :
    splitAtClose cs = none := by
  induction cs with
  | nil => rfl
  | cons c tail ih =>
      cases tail with
      | nil => rfl
      | cons c2 cs2 =>
          have hc := h c (List.mem_cons_self _ _)
          have := ih (fun x hx => h x (List.mem_cons_of_mem _ hx))
          simp [splitAtClose, hc, this]

theorem identOk_no_close (c : Char) (rest : List Char) (hc : isIdentStart c = true)
    (hrest : rest.all identTailChar = true) : splitAtClose (c :: rest) = none := by
  refine splitAtClose_none_of _ ?_
  intro d hd
  rcases List.mem_cons.mp hd with h | h
  · subst h
    exact identStart_not_close d hc
  · exact identTail_not_close d (by
      have h2 := List.all_eq_true.mp hrest
      exact h2 d h)

theorem lex_ident (fuel : Nat) (c : Char) (rest : List Char)
    (hc : isIdentStart c = true) (hrest : rest.all identTailChar = true) :
    lex (fuel + 1) (c :: rest) = some [Token.ident (c :: rest).asString] := by
  have hns := identStart_not_space c hc
  have hall : ∀ d ∈ (c :: rest), isIdentChar d = true := by
    intro d hd
    rcases List.mem_cons.mp hd with h | h
    · subst h
      exact identStart_isIdentChar d hc
    · refine identTail_isIdentChar d ?_
      have h2 := List.all_eq_true.mp hrest
      exact h2 d h
  simp [lex, hns, hc, takeWhileSplit_all _ _ hall, lex_nil]

theorem parseL_single_ident (k : String) :
    parseL 16 .cmp [Token.ident k] = some (Expr.prop k none, []) := rfl

theorem parseL_single_ident_fuel (k : String) :
    parseL (4 * [Token.ident k].length + 12) .cmp [Token.ident k] =
      some (Expr.prop k none, []) := rfl

theorem toList_eq_data (s : String) : s.toList = s.data := rfl

theorem parseExpr_ident (k : String) (hk : identOk k = true) :
    parseExpr k = some (Expr.prop k none) := by
  cases hl : k.data with
  | nil => simp [identOk, hl] at hk
  | cons c rest =>
      rw [identOk, toList_eq_data, hl] at hk
      simp at hk
      obtain ⟨hc, hrest⟩ := hk
      have hlen : k.length = rest.length + 1 := by
        rw [string_length_toList, toList_eq_data, hl]
        simp
      have hasStr : (c :: rest).asString = k := by
        rw [← hl, asString_data]
      rw [parseExpr, hlen, toList_eq_data, hl,
        lex_ident (rest.length + 1) c rest hc (by simpa using hrest), hasStr]
      simp
      rw [parseL_single_ident k]

/-- The general self-reference guard: over any property bag in which every
key of a set has, as its formula, a wrapped reference to another key of the
set (self-reference being the one-element case), compute ends within the
fuel bound and produces the default value 0, at every fuel and whatever the
incoming reference option. -/
theorem selfref_computeAux (P : String → Bool) (bag : PropValue)
    (hS : ∀ j, P j = true → identOk j = true ∧
      ∃ jn, P jn = true ∧ resolveProp bag j = some (.str (wrapStr jn))) :
    ∀ (fuel : Nat) (opts : ComputeOptions) (j : String),
      opts.defaultValue = ("0") → P j = true →
      (computeAux fuel (wrapStr j) bag opts).result = ("0") := by
  intro fuel
  induction fuel with
  | zero =>
      intro opts j hd _
      simp [computeAux, hd]
  | succ n ih =>
      intro opts j hd hj
      obtain ⟨hident, jn, hjn, hres⟩ := hS j hj
      have hclose : splitAtClose j.toList = none := by
        cases hl : j.data with
        | nil =>
            rw [toList_eq_data, hl]
            rfl
        | cons c rest =>
            rw [identOk, toList_eq_data, hl] at hident
            simp at hident
            rw [toList_eq_data, hl]
            exact identOk_no_close c rest hident.1 (by simpa using hident.2)
      have hseg : parseSegments (wrapStr j) = [Segment.expr j] :=
        parseSegments_wrap j hclose
      have hpe : parseExpr j = some (Expr.prop j none) := parseExpr_ident j hident
      have hopen : (splitAtOpen (wrapStr jn).data).isSome = true := by
        rw [show wrapStr jn = ("$\x7b") ++ jn ++ ("\x7d$") from rfl,
          ← toList_eq_data, wrap_toList jn, splitAtOpen_wrap]
        rfl
      have hinner :
          (computeAux n (wrapStr jn) bag { opts with reference := some j }).result
            = ("0") := ih { opts with reference := some j } jn hd hjn
      have hval : strToValue ("0") = Value.num 0 := by decide
      have hvts : valueToString (Value.num 0) = ("0") := by decide
      rw [computeAux, hseg]
      by_cases href : opts.reference = some j
      · simp [segPart, evalSpan, hpe, exprValue, evalExpr, href, hd, join_single]
      · simp [segPart, evalSpan, hpe, exprValue, evalExpr, href, hres, propToValue,
          hopen, hinner, hval, hvts, join_single]

/-- Claim C8: a property whose own formula references itself, directly or
through a cycle of wrapped references (the reference option included, as
passed by the NumberField min and max validation), makes compute terminate
within the fixed recursion bound with a defined result: the depth guard
stops every computation at fuel zero with the configured default, and a
self-referential bag computes to the default value 0 at the full bound,
whatever the incoming reference option. -/
theorem ComputablePhrase.self_reference_guard :
    (∀ (raw : String) (bag : PropValue) (opts : ComputeOptions),
      computeAux 0 raw bag opts = ⟨opts.defaultValue, ("")⟩)
    ∧ (∀ (P : String → Bool) (bag : PropValue) (opts : ComputeOptions),
      (∀ j, P j = true → identOk j = true ∧
        ∃ jn, P jn = true ∧ resolveProp bag j = some (.str (wrapStr jn))) →
      opts.defaultValue = ("0") →
      ∀ j, P j = true →
      (ComputablePhrase.computeMessageStatic (wrapStr j) bag opts).result = ("0")) :=
  ⟨fun _ _ _ => rfl,
   fun P bag opts hS hd j hj => selfref_computeAux P bag hS MAX_COMPUTE_DEPTH opts j hd hj⟩

theorem ComputablePhrase.self_reference_guard_witness :
    (ComputablePhrase.computeMessageStatic (wrapStr ("hp")) selfRefBag
      { defaultValue := ("0") }).result = ("0") :=
  ComputablePhrase.self_reference_guard.2 (fun s => s = ("hp")) selfRefBag
    { defaultValue := ("0") }
    (fun j hj => by
      have hj2 : j = ("hp") := by simpa using hj
      subst hj2
      exact ⟨by decide, ("hp"), by simp, rfl⟩)
    rfl ("hp") (by simp)

/-! ### Clamping lemmas -/

theorem clampJS_id (v lo hi : JSNum) (h1 : jsLt v lo = false) (h2 : jsLt hi v = false) :
    clampJS v lo hi = v := by
  simp [clampJS, h1, h2]

theorem jsLe_not_nan_left (a b : JSNum) (h : jsLe a b = true) : a ≠ .nan := by
  intro he
  subst he
  simp [jsLe] at h

theorem jsLe_not_nan_right (a b : JSNum) (h : jsLe a b = true) : b ≠ .nan := by
  intro he
  subst he
  cases a <;> simp [jsLe] at h

theorem clampJS_mem (v lo hi : JSNum) (hlh : jsLe lo hi = true)
    (hne : clampJS v lo hi ≠ .nan) :
    jsLe lo (clampJS v lo hi) = true ∧ jsLe (clampJS v lo hi) hi = true := by
  have hlo : lo ≠ .nan := jsLe_not_nan_left lo hi hlh
  have hhi : hi ≠ .nan := jsLe_not_nan_right lo hi hlh
  by_cases h1 : jsLt v lo = true
  · have h2 : jsLt hi lo = false := jsLe_lt_false lo hi hlh
    rw [clampJS] at hne ⊢
    simp [h1, h2]
    exact ⟨jsLe_refl lo hlo, hlh⟩
  · have h1f : jsLt v lo = false := by simpa using h1
    by_cases h2 : jsLt hi v = true
    · rw [clampJS] at hne ⊢
      simp [h1f, h2]
      exact ⟨hlh, jsLe_refl hi hhi⟩
    · have h2f : jsLt hi v = false := by simpa using h2
      have hv : v ≠ .nan := by
        rw [clampJS] at hne
        simpa [h1f, h2f] using hne
      rw [clampJS]
      simp [h1f, h2f]
      exact ⟨jsLt_false_le v lo hv hlo h1f, jsLt_false_le hi v hhi hv h2f⟩

/-- Claim C9 counterexample: with decimals disallowed and relative input
allowed, committing the non-integer input 2.5 over the old value -5 does
not keep the old value: the reset value -5 re-enters the relative branch
(it starts with a minus sign) and the persisted value becomes -10, the old
value doubled. -/
theorem NumberField.persistValue_counterexample :
    NumberField.persistValue exC9 (.obj []) ("2.5") ("-5") = .num (.num (-10))
    ∧ jsNumber ("-5") = .num (-5) :=
  ⟨by decide, by decide⟩

/-- Claim C9 (amended): a non-numeric input keeps the old value unchanged.
A non-integer input with decimals disallowed is replaced by the old value
string, which is then re-processed through the relative and clamping steps;
in particular it stays numerically equal to the old value when the old
value is numeric, does not enter the relative branch, and lies within the
min and max bounds.  An accepted relative input (leading plus or minus with
relative allowed) yields old value plus delta, clamped; and every accepted
input persists a number that, when the bounds are ordered and the result is
not NaN, lies in the closed interval between getMinVal and getMaxVal. -/
theorem NumberField.persistValue_amended (f : NumberFieldData) (props : PropValue)
    (newInput oldVal : String) :
    (jsNumber newInput = .nan →
      NumberField.persistValue f props newInput oldVal = .str oldVal)
    ∧ (∀ q p : ℚ, jsNumber newInput = .num q → f.allowDecimal = false → q.den ≠ 1 →
        jsNumber oldVal = .num p →
        (f.allowRelative = false ∨
          (jsStartsWith oldVal ("+") = false ∧ jsStartsWith oldVal ("-") = false)) →
        jsLt (.num p) (NumberField.getMinVal f props) = false →
        jsLt (NumberField.getMaxVal f props) (.num p) = false →
        NumberField.persistValue f props newInput oldVal = .num (.num p))
    ∧ (∀ q p : ℚ, jsNumber newInput = .num q → (f.allowDecimal = true ∨ q.den = 1) →
        f.allowRelative = true →
        (jsStartsWith newInput ("+") = true ∨ jsStartsWith newInput ("-") = true) →
        jsNumber oldVal = .num p →
        jsLt (.num (p + q)) (NumberField.getMinVal f props) = false →
        jsLt (NumberField.getMaxVal f props) (.num (p + q)) = false →
        NumberField.persistValue f props newInput oldVal = .num (.num (p + q)))
    ∧ (∀ q : ℚ, jsNumber newInput = .num q →
        ∃ v : JSNum, NumberField.persistValue f props newInput oldVal = .num v ∧
          (jsLe (NumberField.getMinVal f props) (NumberField.getMaxVal f props) = true →
            v ≠ .nan →
            jsLe (NumberField.getMinVal f props) v = true ∧
            jsLe v (NumberField.getMaxVal f props) = true)) := by
  refine ⟨?_, ?_, ?_, ?_⟩
  · intro h
    simp [NumberField.persistValue, h]
  · intro q p hq hdec hden hold hrel h1 h2
    have hnan : ¬(jsNumber newInput = .nan) := by simp [hq]
    have hint : jsIsInteger (jsNumber newInput) = false := by
      simp [hq, jsIsInteger, hden]
    have hrelc : (f.allowRelative &&
        (jsStartsWith oldVal ("+") || jsStartsWith oldVal ("-"))) = false := by
      rcases hrel with h | ⟨ha, hb⟩
      · simp [h]
      · simp [ha, hb]
    rw [NumberField.persistValue, if_neg hnan]
    simp only [hdec, hint, Bool.not_false, Bool.and_self, if_true, hrelc,
      Bool.false_eq_true, if_false, hold]
    rw [clampJS_id _ _ _ h1 h2]
  · intro q p hq hdi hrel hstart hold h1 h2
    have hnan : ¬(jsNumber newInput = .nan) := by simp [hq]
    have hint : (!f.allowDecimal && !jsIsInteger (JSNum.num q)) = false := by
      rcases hdi with h | h
      · simp [h]
      · simp [jsIsInteger, h]
    have hstartc : (f.allowRelative &&
        (jsStartsWith newInput ("+") || jsStartsWith newInput ("-"))) = true := by
      rcases hstart with h | h <;> simp [hrel, h]
    rw [NumberField.persistValue, if_neg hnan]
    simp only [hq, hint, Bool.false_eq_true, if_false, hstartc, if_true, hold, jsAdd,
      ratAdd_eq_add]
    rw [clampJS_id _ _ _ h1 h2]
  · intro q hq
    have hnan : ¬(jsNumber newInput = .nan) := by simp [hq]
    rw [NumberField.persistValue, if_neg hnan]
    refine ⟨_, rfl, fun hle hne => clampJS_mem _ _ _ hle hne⟩

theorem NumberField.persistValue_amended_witness :
    NumberField.persistValue exC9 (.obj []) ("abc") ("5") = .str ("5")
    ∧ NumberField.persistValue exC9 (.obj []) ("+2") ("5") = .num (.num (5 + 2)) :=
  ⟨(NumberField.persistValue_amended exC9 (.obj []) ("abc") ("5")).1 (by decide),
   (NumberField.persistValue_amended exC9 (.obj []) ("+2") ("5")).2.2.1 2 5
     (by decide) (Or.inr (by decide)) rfl (Or.inl (by decide)) (by decide)
     (by decide) (by decide)⟩
